import Mathlib

/-!
Verification of the redsync distributed lock manager (a Rust implementation
of the Redlock algorithm) against its natural-language specification.

The development is a shallow embedding of the crate's core:

* `src/errors.rs`   — `RedsyncError`, `MultiError` (error model, `includes`);
* `src/redsync.rs`  — `Lock`, `Redsync`, the shared acquire/extend retry loop
  (`call`), `unlock`, `get_retry_delay`;
* `src/builder.rs`  — the builder (`new`, `retry_count`, `retry_delay`,
  `build`); the checked-in `builder.rs` spells the names `RedlockBuilder` /
  `Redlock`, an older spelling of the same component that `lib.rs` re-exports
  as `RedsyncBuilder` / `Redsync`; the embedding uses the exported names;
* `src/instance.rs` — the `Instance` contract and the Redis adapter's
  connection `timeout`.

Modelling conventions:

* Durations are natural numbers of milliseconds; monotonic `Instant`s are
  integers (milliseconds on an unbounded monotonic axis).
* `f64` values (`drift_factor`, `retry_jitter`, the jitter sample) are
  modelled as rationals; a Rust `as u64` cast of a non-negative float is
  `Rat.floor` followed by `Int.toNat`, and of a negative float saturates
  to `0`, which `Int.toNat` also gives.
* Randomness (the lock nonce, the jitter sample) and real time (the
  per-attempt monotonic readings) enter as explicit parameters: the nonce
  `value` is an input, and `times k = (start, nowCheck)` gives the two
  monotonic readings the source takes during attempt `k`.
* An `Instance` is its three response functions; the instance calls a run
  performs are recorded in a trace of `Event`s so that fan-out order,
  sleeps and best-effort clean-up releases are observable.
* A Rust computation that would abort on arithmetic underflow is modelled
  with `Option` (`none` = abort); nothing else is fallible client-side.
-/

/-- Model of `redis::Value` as far as this crate inspects it: `Okay`, `Nil`,
integers, and a catch-all payload for other shapes. -/
inductive RValue where
  | Okay
  | Nil
  | IntV (n : Int)
  | Data (s : String)
deriving DecidableEq, Repr

/-- `RedsyncError` from `src/errors.rs`: the five single-instance kinds
(`RedisError` is the transport error, carrying its message) and the three
aggregates carrying the per-instance errors of one fan-out. -/
inductive RedsyncError where
  | RedisError (msg : String)
  | UnexpectedResponse (v : RValue)
  | ResourceLocked
  | InvalidLease
  | LockRetriesExceeded (m : List RedsyncError)
  | ExtendRetriesExceeded (m : List RedsyncError)
  | UnlockFailed (m : List RedsyncError)
deriving Repr

/-- `MultiError` wraps a vector of errors; the wrapper adds no structure, so
the model is the list itself. -/
abbrev MultiError := List RedsyncError

mutual

/-- Structural equality on `RedsyncError`, the comparison `#[derive(PartialEq)]`
generates in `src/errors.rs`: constructors and all payloads must agree. -/
def RedsyncError.beq : RedsyncError → RedsyncError → Bool
  | .RedisError a, .RedisError b => a == b
  | .UnexpectedResponse a, .UnexpectedResponse b => a == b
  | .ResourceLocked, .ResourceLocked => true
  | .InvalidLease, .InvalidLease => true
  | .LockRetriesExceeded a, .LockRetriesExceeded b => RedsyncError.beqList a b
  | .ExtendRetriesExceeded a, .ExtendRetriesExceeded b => RedsyncError.beqList a b
  | .UnlockFailed a, .UnlockFailed b => RedsyncError.beqList a b
  | _, _ => false

/-- Elementwise `RedsyncError.beq` on lists (the derived `Vec` comparison). -/
def RedsyncError.beqList : List RedsyncError → List RedsyncError → Bool
  | [], [] => true
  | x :: xs, y :: ys => RedsyncError.beq x y && RedsyncError.beqList xs ys
  | _, _ => false

end

instance : BEq RedsyncError := ⟨RedsyncError.beq⟩

/-- `MultiError::includes` from `src/errors.rs`: `self.contains(&e)`, i.e.
membership under the derived structural equality. -/
def MultiError.includes (m : MultiError) (e : RedsyncError) : Bool :=
  m.contains e

/-- The variant tag of an error, ignoring payloads. The specification's
`includes(kind)` is described as equality on this tag; the tag is the
spec-side notion the claim compares the code against. -/
def RedsyncError.tag : RedsyncError → Nat
  | .RedisError _ => 0
  | .UnexpectedResponse _ => 1
  | .ResourceLocked => 2
  | .InvalidLease => 3
  | .LockRetriesExceeded _ => 4
  | .ExtendRetriesExceeded _ => 5
  | .UnlockFailed _ => 6

/-- `Lock` from `src/redsync.rs`: the lease descriptor. `ttl` is in
milliseconds; `expiry` is a monotonic timestamp in milliseconds. -/
structure Lock where
  resource : String
  value : String
  ttl : Nat
  expiry : Int
deriving DecidableEq, Repr

/-- The `Instance` trait from `src/instance.rs`: an entity with the three
primitive operations. An instance is modelled by its response functions. -/
structure Instance where
  acquire : Lock → Except RedsyncError Unit
  extend : Lock → Except RedsyncError Unit
  release : Lock → Except RedsyncError Unit

/-- The test double from `src/redsync.rs` (`FakeInstance`): each flag makes
the respective operation succeed when it is `1`, and fail with
`ResourceLocked` (acquire) or `InvalidLease` (extend, release) otherwise. -/
def FakeInstance (acquire extend release : Int) : Instance where
  acquire := fun _ => match acquire with
    | 1 => .ok ()
    | _ => .error .ResourceLocked
  extend := fun _ => match extend with
    | 1 => .ok ()
    | _ => .error .InvalidLease
  release := fun _ => match release with
    | 1 => .ok ()
    | _ => .error .InvalidLease

/-- `Redsync` from `src/redsync.rs` (spelled `Redlock` in the older
`builder.rs`): the manager's configuration, fixed at build time. -/
structure Redsync where
  cluster : List Instance
  quorum : Nat
  retry_count : Nat
  retry_delay : Nat
  retry_jitter : Rat
  drift_factor : Rat

/-- The builder from `src/builder.rs` (there spelled `RedlockBuilder`,
re-exported by `lib.rs` as `RedsyncBuilder`): the cluster plus the two
tunable knobs. -/
structure RedsyncBuilder where
  cluster : List Instance
  retry_count : Nat
  retry_delay : Nat

/-- `RedsyncBuilder::new`: defaults of 3 retries and a 200 ms base delay. -/
def RedsyncBuilder.new (cluster : List Instance) : RedsyncBuilder :=
  { cluster := cluster, retry_count := 3, retry_delay := 200 }

/-- The builder's `retry_count` setter. -/
def RedsyncBuilder.retryCount (b : RedsyncBuilder) (retry_count : Nat) :
    RedsyncBuilder :=
  { b with retry_count := retry_count }

/-- The builder's `retry_delay` setter (milliseconds). -/
def RedsyncBuilder.retryDelay (b : RedsyncBuilder) (retry_delay : Nat) :
    RedsyncBuilder :=
  { b with retry_delay := retry_delay }

/-- `RedsyncBuilder::build`: computes `quorum = len / 2 + 1`, derives
`retry_jitter` as half of `retry_delay`, fixes `drift_factor = 0.01`, and
unconditionally hands back a manager — the source has no validation and no
failure channel. -/
def RedsyncBuilder.build (b : RedsyncBuilder) : Redsync :=
  { cluster := b.cluster
    quorum := b.cluster.length / 2 + 1
    retry_count := b.retry_count
    retry_delay := b.retry_delay
    retry_jitter := (b.retry_delay : Rat) * (1 / 2)
    drift_factor := 1 / 100 }

/-- `Redsync::new`: build with all defaults. -/
def Redsync.new (cluster : List Instance) : Redsync :=
  (RedsyncBuilder.new cluster).build

/-- The drift reserve computed at the top of `Redsync::call`:
`(ttl_ms as f64 * drift_factor) as u64 + 2` milliseconds. -/
def Redsync.drift (s : Redsync) (ttl : Nat) : Nat :=
  (Rat.floor ((ttl : Rat) * s.drift_factor)).toNat + 2

/-- Which primitive the shared retry loop invokes (`enum Call`). -/
inductive Call where
  | Lock
  | Extend
deriving DecidableEq, Repr

/-- The error the loop reports once retries are exhausted (the final `match`
of `Redsync::call`). -/
def Call.mkError : Call → MultiError → RedsyncError
  | .Lock, m => .LockRetriesExceeded m
  | .Extend, m => .ExtendRetriesExceeded m

/-- The primitive one fan-out step invokes on an instance. -/
def callPrim : Call → Instance → Lock → Except RedsyncError Unit
  | .Lock, i, lock => i.acquire lock
  | .Extend, i, lock => i.extend lock

/-- Whether a primitive call counted as a vote (`Ok(())`). -/
def isOkB : Except RedsyncError Unit → Bool
  | .ok _ => true
  | .error _ => false

/-- The error a primitive call pushed, if any. -/
def errOf : Except RedsyncError Unit → Option RedsyncError
  | .ok _ => none
  | .error e => some e

/-- One fan-out over the cluster, threading `(votes, errors)` exactly as the
`for instance in &self.cluster` loops of `call` and `unlock` do: a success
increments the count, an error is pushed at the back. -/
def tally (f : Instance → Except RedsyncError Unit) (cluster : List Instance)
    (acc : Nat × List RedsyncError) : Nat × List RedsyncError :=
  cluster.foldl
    (fun acc i =>
      match f i with
      | .ok _ => (acc.1 + 1, acc.2)
      | .error e => (acc.1, acc.2 ++ [e]))
    acc

/-- An observable step of a run: `prim k i` is the acquire/extend sent to
instance `i` during attempt `k`, `rel k i` the release sent to instance `i`
by the best-effort clean-up unlock of attempt `k`, and `sleep k` the
inter-attempt sleep that follows attempt `k`. -/
inductive Event where
  | prim (attempt inst : Nat)
  | rel (attempt inst : Nat)
  | sleep (attempt : Nat)
deriving DecidableEq, Repr

/-- The attempt an event belongs to. -/
def Event.attempt : Event → Nat
  | .prim k _ => k
  | .rel k _ => k
  | .sleep k => k

/-- The fan-out events of attempt `k` over a cluster of `n` instances, in
cluster order. -/
def fanEvents (k n : Nat) : List Event :=
  (List.range n).map (Event.prim k)

/-- The release events of the best-effort clean-up unlock of attempt `k`:
`unlock` sends one release to every instance, in cluster order. -/
def relEvents (k n : Nat) : List Event :=
  (List.range n).map (Event.rel k)

/-- The retry loop of `Redsync::call`, one recursive step per attempt.
`attempt` is the current attempt number, `remaining` how many attempts are
left including the current one (the loop runs `attempt = 1 ..= retry_count`),
and `errors` the `MultiError` carried into the attempt. Per attempt: read
`start`, build the candidate lock with `expiry = start + ttl - drift`, fan
out, and return it if the votes reach quorum and the expiry is still ahead of
the monotonic clock; otherwise run the best-effort `unlock` (its result is
discarded — only its release calls are recorded) and, if an attempt remains,
clear the errors and sleep. Exhaustion reports `Call.mkError` over the errors
accumulated since the last reset. The result is paired with the run's event
trace. -/
def Redsync.callLoop (s : Redsync) (c : Call) (resource value : String)
    (ttl drift : Nat) (times : Nat → Int × Int) :
    Nat → Nat → List RedsyncError → Except RedsyncError Lock × List Event
  | _, 0, errors => (.error (c.mkError errors), [])
  | attempt, remaining + 1, errors =>
    let start := (times attempt).1
    let lock : Lock :=
      { resource := resource, value := value, ttl := ttl
        expiry := start + (ttl : Int) - (drift : Int) }
    let acc := tally (fun i => callPrim c i lock) s.cluster (0, errors)
    let fanEvs := fanEvents attempt s.cluster.length
    if s.quorum ≤ acc.1 ∧ (times attempt).2 < lock.expiry then
      (.ok lock, fanEvs)
    else
      let relEvs := relEvents attempt s.cluster.length
      match remaining with
      | 0 => (.error (c.mkError acc.2), fanEvs ++ relEvs)
      | r + 1 =>
        let rest :=
          s.callLoop c resource value ttl drift times (attempt + 1) (r + 1) []
        (rest.1, fanEvs ++ relEvs ++ [Event.sleep attempt] ++ rest.2)

/-- `Redsync::call`: compute the drift once, then run the retry loop from
attempt 1 with an empty `MultiError`. -/
def Redsync.call (s : Redsync) (c : Call) (resource value : String)
    (ttl : Nat) (times : Nat → Int × Int) :
    Except RedsyncError Lock × List Event :=
  s.callLoop c resource value ttl (s.drift ttl) times 1 s.retry_count []

/-- `Redsync::lock`: the acquire entry point. The random 20-character nonce
the source generates is the explicit `value` argument here. -/
def Redsync.lock (s : Redsync) (resource value : String) (ttl : Nat)
    (times : Nat → Int × Int) : Except RedsyncError Lock × List Event :=
  s.call .Lock resource value ttl times

/-- `Redsync::extend`: the extend entry point, carrying the input lock's
resource and nonce. -/
def Redsync.extend (s : Redsync) (lock : Lock) (ttl : Nat)
    (times : Nat → Int × Int) : Except RedsyncError Lock × List Event :=
  s.call .Extend lock.resource lock.value ttl times

/-- `Redsync::unlock`: one fan-out of `release` over the cluster, counting
successes and pushing errors; fails with `UnlockFailed` when the successes
fall short of quorum. No retry. -/
def Redsync.unlock (s : Redsync) (lock : Lock) : Except RedsyncError Unit :=
  let acc := tally (fun i => i.release lock) s.cluster (0, [])
  if acc.1 < s.quorum then .error (.UnlockFailed acc.2) else .ok ()

/-- `Redsync::get_retry_delay`: the sampled factor in `[-1, 1)` scales
`retry_jitter`; a positive jitter is added to the base delay, otherwise its
negation is subtracted. The subtraction is on an unsigned duration and
aborts on underflow, modelled by `none`. -/
def Redsync.get_retry_delay (s : Redsync) (sample : Rat) : Option Nat :=
  let jitter := sample * s.retry_jitter
  if 0 < jitter then
    some (s.retry_delay + (Rat.floor jitter).toNat)
  else if (Rat.floor (-jitter)).toNat ≤ s.retry_delay then
    some (s.retry_delay - (Rat.floor (-jitter)).toNat)
  else
    none

/-- `RedisInstance::timeout` from `src/instance.rs`: the connection timeout,
`(ttl_ms as f64 * 0.01) as u64` milliseconds. -/
def RedisInstance.timeout (ttl : Nat) : Nat :=
  (Rat.floor ((ttl : Rat) * (1 / 100))).toNat

/-! ## Analysis layer

Pure views of one attempt of the retry loop, used to state and prove the
decomposition of `Redsync.callLoop`. Each attempt's outcome depends only on
its (monotonic-clock) readings, so attempt `k` of a run is a function of
`k`. -/

/-- The vote count of one fan-out: the instances whose primitive succeeded. -/
def fanVotes (f : Instance → Except RedsyncError Unit)
    (cluster : List Instance) : Nat :=
  (cluster.filter (fun i => isOkB (f i))).length

/-- The errors of one fan-out, in cluster order. -/
def fanErrs (f : Instance → Except RedsyncError Unit)
    (cluster : List Instance) : List RedsyncError :=
  cluster.filterMap (fun i => errOf (f i))

/-- The candidate lock attempt `k` constructs: `expiry = start + ttl - drift`
with `start` the attempt's first monotonic reading. -/
def attemptLock (resource value : String) (ttl drift : Nat)
    (times : Nat → Int × Int) (k : Nat) : Lock :=
  { resource := resource, value := value, ttl := ttl
    expiry := (times k).1 + (ttl : Int) - (drift : Int) }

/-- The votes attempt `k` collects from the cluster. -/
def attemptVotes (s : Redsync) (c : Call) (resource value : String)
    (ttl drift : Nat) (times : Nat → Int × Int) (k : Nat) : Nat :=
  fanVotes (fun i => callPrim c i (attemptLock resource value ttl drift times k))
    s.cluster

/-- The per-instance errors attempt `k` pushes, in cluster order. -/
def attemptErrs (s : Redsync) (c : Call) (resource value : String)
    (ttl drift : Nat) (times : Nat → Int × Int) (k : Nat) : List RedsyncError :=
  fanErrs (fun i => callPrim c i (attemptLock resource value ttl drift times k))
    s.cluster

/-- Attempt `k` succeeds: its votes reach quorum and its lock's expiry is
still ahead of the second monotonic reading. -/
def attemptOk (s : Redsync) (c : Call) (resource value : String)
    (ttl drift : Nat) (times : Nat → Int × Int) (k : Nat) : Prop :=
  s.quorum ≤ attemptVotes s c resource value ttl drift times k ∧
    (times k).2 < (attemptLock resource value ttl drift times k).expiry

instance (s : Redsync) (c : Call) (resource value : String) (ttl drift : Nat)
    (times : Nat → Int × Int) (k : Nat) :
    Decidable (attemptOk s c resource value ttl drift times k) :=
  inferInstanceAs (Decidable (_ ∧ _))

/-! ## Concrete scenario data

The clusters of the specification's concrete scenarios, built from the test
doubles, and the fixed inputs the scenario runs use. -/

/-- Scenario cluster `[(1,1,1),(1,1,1),(0,1,1)]`: two healthy instances and
one that denies acquisition. -/
def clusterA : List Instance :=
  [FakeInstance 1 1 1, FakeInstance 1 1 1, FakeInstance 0 1 1]

/-- Scenario cluster `[(0,1,1),(0,1,1),(1,1,1)]`: two instances deny
acquisition, so `lock` can never reach quorum. -/
def clusterB : List Instance :=
  [FakeInstance 0 1 1, FakeInstance 0 1 1, FakeInstance 1 1 1]

/-- The default-configured manager over `clusterA`. -/
def dlmA : Redsync := Redsync.new clusterA

/-- The default-configured manager over `clusterB`. -/
def dlmB : Redsync := Redsync.new clusterB

/-- A time oracle that reads the monotonic clock as `0` throughout: every
attempt starts at `0` and checks expiry at `0`. -/
def timesZ : Nat → Int × Int := fun _ => (0, 0)

/-- The lock the successful scenario returns: `ttl = 1000` ms acquired at
`start = 0` under the default drift `1000 / 100 + 2 = 12`, so
`expiry = 988`. -/
def lockA : Lock :=
  { resource := "r", value := "v", ttl := 1000, expiry := 988 }
/-- The loop accumulator equals start votes plus fan-out votes, and start
errors followed by the fan-out errors in cluster order. -/
theorem tally_eq (f : Instance → Except RedsyncError Unit) :
    ∀ (cluster : List Instance) (n : Nat) (es : List RedsyncError),
      tally f cluster (n, es) = (n + fanVotes f cluster, es ++ fanErrs f cluster)
  | [], n, es => by simp [tally, fanVotes, fanErrs]
  | i :: cluster, n, es => by
    cases h : f i with
    | ok u =>
      have ih := tally_eq f cluster (n + 1) es
      simp only [tally, List.foldl_cons, h] at ih ⊢
      simp [ih, fanVotes, fanErrs, h, isOkB, errOf]
      omega
    | error e =>
      have ih := tally_eq f cluster n (es ++ [e])
      simp only [tally, List.foldl_cons, h] at ih ⊢
      simp [ih, fanVotes, fanErrs, h, isOkB, errOf]


/-! ## Run decomposition

`callLoop_succ` unfolds one attempt of the retry loop in terms of the pure
per-attempt views; the lemmas after it characterise a whole run: a returned
lock is the candidate of some succeeding attempt, an error return means
every attempt failed and carries exactly the final attempt's errors, and the
event trace is attempt-ordered with exactly one clean-up release per
instance and failing attempt. -/

theorem callLoop_succ (s : Redsync) (c : Call) (res val : String)
    (ttl drift : Nat) (times : Nat → Int × Int) (a r : Nat)
    (es : List RedsyncError) :
    s.callLoop c res val ttl drift times a (r + 1) es =
      if attemptOk s c res val ttl drift times a then
        (.ok (attemptLock res val ttl drift times a),
          fanEvents a s.cluster.length)
      else
        match r with
        | 0 =>
          (.error (c.mkError (es ++ attemptErrs s c res val ttl drift times a)),
            fanEvents a s.cluster.length ++ relEvents a s.cluster.length)
        | r' + 1 =>
          ((s.callLoop c res val ttl drift times (a + 1) (r' + 1) []).1,
            fanEvents a s.cluster.length ++ relEvents a s.cluster.length ++
              [Event.sleep a] ++
              (s.callLoop c res val ttl drift times (a + 1) (r' + 1) []).2) := by
  conv_lhs => rw [Redsync.callLoop]
  simp only [tally_eq, Nat.zero_add, attemptOk, attemptVotes, attemptErrs,
    attemptLock]

theorem callLoop_ok (s : Redsync) (c : Call) (res val : String)
    (ttl drift : Nat) (times : Nat → Int × Int) :
    ∀ (r a : Nat) (es : List RedsyncError) (lk : Lock),
      (s.callLoop c res val ttl drift times a r es).1 = .ok lk →
      ∃ k, a ≤ k ∧ k < a + r ∧ attemptOk s c res val ttl drift times k ∧
        lk = attemptLock res val ttl drift times k
  | 0, a, es, lk => by
    intro h
    simp [Redsync.callLoop] at h
  | r + 1, a, es, lk => by
    intro h
    rw [callLoop_succ] at h
    by_cases hk : attemptOk s c res val ttl drift times a
    · rw [if_pos hk] at h
      refine ⟨a, Nat.le_refl a, by omega, hk, ?_⟩
      simpa using h.symm
    · rw [if_neg hk] at h
      cases r with
      | zero => simp at h
      | succ r' =>
        simp only [] at h
        obtain ⟨k, hk1, hk2, hok, hlk⟩ :=
          callLoop_ok s c res val ttl drift times (r' + 1) (a + 1) [] lk h
        exact ⟨k, by omega, by omega, hok, hlk⟩

theorem callLoop_all_fail_of_err (s : Redsync) (c : Call) (res val : String)
    (ttl drift : Nat) (times : Nat → Int × Int) :
    ∀ (r a : Nat) (es : List RedsyncError) (e : RedsyncError),
      (s.callLoop c res val ttl drift times a r es).1 = .error e →
      ∀ k, a ≤ k → k < a + r → ¬ attemptOk s c res val ttl drift times k
  | 0, a, es, e => by
    intro _ k hk1 hk2
    omega
  | r + 1, a, es, e => by
    intro h k hk1 hk2
    rw [callLoop_succ] at h
    by_cases ha : attemptOk s c res val ttl drift times a
    · rw [if_pos ha] at h
      simp at h
    · rw [if_neg ha] at h
      rcases Nat.eq_or_lt_of_le hk1 with rfl | hlt
      · exact ha
      · cases r with
        | zero => omega
        | succ r' =>
          simp only [] at h
          exact callLoop_all_fail_of_err s c res val ttl drift times
            (r' + 1) (a + 1) [] e h k hlt (by omega)

theorem callLoop_err_val (s : Redsync) (c : Call) (res val : String)
    (ttl drift : Nat) (times : Nat → Int × Int) :
    ∀ (r a : Nat),
      (∀ k, a ≤ k → k < a + (r + 1) →
        ¬ attemptOk s c res val ttl drift times k) →
      (s.callLoop c res val ttl drift times a (r + 1) []).1 =
        .error (c.mkError (attemptErrs s c res val ttl drift times (a + r)))
  | 0, a => by
    intro hfail
    rw [callLoop_succ, if_neg (hfail a (Nat.le_refl a) (by omega))]
    simp
  | r + 1, a => by
    intro hfail
    rw [callLoop_succ, if_neg (hfail a (Nat.le_refl a) (by omega))]
    simp only []
    have ih := callLoop_err_val s c res val ttl drift times r (a + 1)
      (fun k h1 h2 => hfail k (by omega) (by omega))
    rw [ih]
    have : a + 1 + r = a + (r + 1) := by omega
    rw [this]

theorem mem_fanEvents (a n : Nat) (e : Event) (h : e ∈ fanEvents a n) :
    ∃ i, i < n ∧ e = Event.prim a i := by
  simp only [fanEvents, List.mem_map, List.mem_range] at h
  obtain ⟨i, hi, rfl⟩ := h
  exact ⟨i, hi, rfl⟩

theorem mem_relEvents (a n : Nat) (e : Event) (h : e ∈ relEvents a n) :
    ∃ i, i < n ∧ e = Event.rel a i := by
  simp only [relEvents, List.mem_map, List.mem_range] at h
  obtain ⟨i, hi, rfl⟩ := h
  exact ⟨i, hi, rfl⟩

theorem fanEvents_count_rel (a n k i : Nat) :
    (fanEvents a n).count (Event.rel k i) = 0 := by
  refine List.count_eq_zero.mpr (fun h => ?_)
  obtain ⟨j, _, he⟩ := mem_fanEvents a n (Event.rel k i) h
  simp at he

theorem relEvents_count_rel_self (a n i : Nat) (h : i < n) :
    (relEvents a n).count (Event.rel a i) = 1 := by
  have hnd : (relEvents a n).Nodup := by
    refine List.Nodup.map ?_ (List.nodup_range n)
    intro x y hxy
    simpa using hxy
  have hm : Event.rel a i ∈ relEvents a n := by
    simp only [relEvents, List.mem_map, List.mem_range]
    exact ⟨i, h, rfl⟩
  exact List.count_eq_one_of_mem hnd hm

theorem relEvents_count_rel_ne (a n k i : Nat) (h : k ≠ a) :
    (relEvents a n).count (Event.rel k i) = 0 := by
  refine List.count_eq_zero.mpr (fun hm => ?_)
  obtain ⟨j, _, he⟩ := mem_relEvents a n (Event.rel k i) hm
  rw [Event.rel.injEq] at he
  exact h he.1

theorem callLoop_min_attempt (s : Redsync) (c : Call) (res val : String)
    (ttl drift : Nat) (times : Nat → Int × Int) :
    ∀ (r a : Nat) (es : List RedsyncError) (e : Event),
      e ∈ (s.callLoop c res val ttl drift times a r es).2 → a ≤ e.attempt
  | 0, a, es, e => by
    intro h
    simp [Redsync.callLoop] at h
  | r + 1, a, es, e => by
    intro h
    rw [callLoop_succ] at h
    by_cases ha : attemptOk s c res val ttl drift times a
    · rw [if_pos ha] at h
      simp only [] at h
      obtain ⟨i, _, rfl⟩ := mem_fanEvents a s.cluster.length e h
      exact Nat.le_refl a
    · rw [if_neg ha] at h
      cases r with
      | zero =>
        simp only [List.mem_append] at h
        rcases h with h | h
        · obtain ⟨i, _, rfl⟩ := mem_fanEvents a s.cluster.length e h
          exact Nat.le_refl a
        · obtain ⟨i, _, rfl⟩ := mem_relEvents a s.cluster.length e h
          exact Nat.le_refl a
      | succ r' =>
        simp only [List.mem_append, List.mem_singleton] at h
        rcases h with ((h | h) | h) | h
        · obtain ⟨i, _, rfl⟩ := mem_fanEvents a s.cluster.length e h
          exact Nat.le_refl a
        · obtain ⟨i, _, rfl⟩ := mem_relEvents a s.cluster.length e h
          exact Nat.le_refl a
        · subst h
          exact Nat.le_refl a
        · have := callLoop_min_attempt s c res val ttl drift times
            (r' + 1) (a + 1) [] e h
          omega

theorem callLoop_count_rel (s : Redsync) (c : Call) (res val : String)
    (ttl drift : Nat) (times : Nat → Int × Int) (i : Nat)
    (hi : i < s.cluster.length) :
    ∀ (r a : Nat) (es : List RedsyncError) (k : Nat),
      a ≤ k → k < a + r →
      (∀ j, a ≤ j → j < k → ¬ attemptOk s c res val ttl drift times j) →
      ¬ attemptOk s c res val ttl drift times k →
      ((s.callLoop c res val ttl drift times a r es).2).count (Event.rel k i)
        = 1
  | 0, a, es, k => by
    intro h1 h2
    omega
  | r + 1, a, es, k => by
    intro hak hkr hfail hk
    have ha : ¬ attemptOk s c res val ttl drift times a := by
      rcases Nat.eq_or_lt_of_le hak with rfl | hlt
      · exact hk
      · exact hfail a (Nat.le_refl a) hlt
    rw [callLoop_succ, if_neg ha]
    rcases Nat.eq_or_lt_of_le hak with rfl | hlt
    · cases r with
      | zero =>
        simp only [List.count_append, fanEvents_count_rel,
          relEvents_count_rel_self a s.cluster.length i hi]
      | succ r' =>
        have hrest : ((s.callLoop c res val ttl drift times (a + 1) (r' + 1)
            []).2).count (Event.rel a i) = 0 := by
          refine List.count_eq_zero.mpr (fun hm => ?_)
          have := callLoop_min_attempt s c res val ttl drift times
            (r' + 1) (a + 1) [] (Event.rel a i) hm
          simp [Event.attempt] at this
        simp only [List.count_append, fanEvents_count_rel,
          relEvents_count_rel_self a s.cluster.length i hi, hrest]
        rw [List.count_eq_zero.mpr (by simp)]
    · cases r with
      | zero => omega
      | succ r' =>
        have hne : a ≠ k := by omega
        have ih := callLoop_count_rel s c res val ttl drift times i hi
          (r' + 1) (a + 1) [] k hlt (by omega)
          (fun j hj1 hj2 => hfail j (by omega) hj2) hk
        simp only [List.count_append, fanEvents_count_rel,
          relEvents_count_rel_ne a s.cluster.length k i (fun h => hne h.symm),
          ih]
        rw [List.count_eq_zero.mpr (by simp)]

theorem pairwise_attempt_const (l : List Event) (a : Nat)
    (h : ∀ e ∈ l, e.attempt = a) :
    l.Pairwise (fun e f => e.attempt ≤ f.attempt) := by
  induction l with
  | nil => exact List.Pairwise.nil
  | cons x xs ih =>
    refine List.Pairwise.cons (fun y hy => ?_)
      (ih (fun e he => h e (List.mem_cons_of_mem x he)))
    rw [h x (List.mem_cons_self x xs), h y (List.mem_cons_of_mem x hy)]

theorem callLoop_attempt_pairwise (s : Redsync) (c : Call) (res val : String)
    (ttl drift : Nat) (times : Nat → Int × Int) :
    ∀ (r a : Nat) (es : List RedsyncError),
      ((s.callLoop c res val ttl drift times a r es).2).Pairwise
        (fun e f => e.attempt ≤ f.attempt)
  | 0, a, es => by
    simp [Redsync.callLoop]
  | r + 1, a, es => by
    rw [callLoop_succ]
    by_cases ha : attemptOk s c res val ttl drift times a
    · rw [if_pos ha]
      refine pairwise_attempt_const _ a (fun e he => ?_)
      obtain ⟨i, _, rfl⟩ := mem_fanEvents a s.cluster.length e he
      rfl
    · rw [if_neg ha]
      have hfan : ∀ e ∈ fanEvents a s.cluster.length, e.attempt = a := by
        intro e he
        obtain ⟨i, _, rfl⟩ := mem_fanEvents a s.cluster.length e he
        rfl
      have hrel : ∀ e ∈ relEvents a s.cluster.length, e.attempt = a := by
        intro e he
        obtain ⟨i, _, rfl⟩ := mem_relEvents a s.cluster.length e he
        rfl
      cases r with
      | zero =>
        refine pairwise_attempt_const _ a (fun e he => ?_)
        rcases List.mem_append.mp he with h | h
        · exact hfan e h
        · exact hrel e h
      | succ r' =>
        simp only []
        have hrest := callLoop_attempt_pairwise s c res val ttl drift times
          (r' + 1) (a + 1) []
        have hmin := callLoop_min_attempt s c res val ttl drift times
          (r' + 1) (a + 1) []
        have hsleep : ∀ e ∈ [Event.sleep a], e.attempt = a := by
          intro e he
          rw [List.mem_singleton] at he
          subst he
          rfl
        rw [List.append_assoc, List.append_assoc]
        refine List.pairwise_append.mpr
          ⟨pairwise_attempt_const _ a hfan, ?_, ?_⟩
        · refine List.pairwise_append.mpr
            ⟨pairwise_attempt_const _ a hrel, ?_, ?_⟩
          · refine List.pairwise_append.mpr
              ⟨pairwise_attempt_const _ a hsleep, hrest, ?_⟩
            intro x hx y hy
            rw [hsleep x hx]
            exact Nat.le_of_succ_le (hmin y hy)
          · intro x hx y hy
            rw [hrel x hx]
            rcases List.mem_append.mp hy with h | h
            · rw [hsleep y h]
            · exact Nat.le_of_succ_le (hmin y h)
        · intro x hx y hy
          rw [hfan x hx]
          rcases List.mem_append.mp hy with h | h
          · rw [hrel y h]
          · rcases List.mem_append.mp h with h2 | h2
            · rw [hsleep y h2]
            · exact Nat.le_of_succ_le (hmin y h2)

theorem ratFloor_eq_intFloor (q : Rat) : Rat.floor q = ⌊q⌋ :=
  (Rat.floor_def' q).trans Rat.floor_def.symm

theorem ratFloor_natCast_mul_hundredth (t : Nat) :
    Rat.floor ((t : Rat) * (1 / 100)) = ((t / 100 : Nat) : Int) := by
  rw [ratFloor_eq_intFloor]
  have h1 : ((t : Rat) * (1 / 100)) = ((t : Int) : Rat) / ((100 : Nat) : Rat) := by
    push_cast
    ring
  rw [h1, Rat.floor_intCast_div_natCast, ← Int.natCast_div]

theorem Redsync.drift_default (s : Redsync) (h : s.drift_factor = 1 / 100)
    (ttl : Nat) : s.drift ttl = ttl / 100 + 2 := by
  rw [Redsync.drift, h, ratFloor_natCast_mul_hundredth, Int.toNat_natCast]

theorem RedsyncBuilder.build_drift (b : RedsyncBuilder) (ttl : Nat) :
    (b.build).drift ttl = ttl / 100 + 2 :=
  Redsync.drift_default b.build rfl ttl

mutual

theorem RedsyncError.beq_iff : ∀ a b : RedsyncError,
    RedsyncError.beq a b = true ↔ a = b
  | .RedisError x, .RedisError y => by
    simp [RedsyncError.beq]
  | .UnexpectedResponse x, .UnexpectedResponse y => by
    simp [RedsyncError.beq]
  | .ResourceLocked, .ResourceLocked => by
    simp [RedsyncError.beq]
  | .InvalidLease, .InvalidLease => by
    simp [RedsyncError.beq]
  | .LockRetriesExceeded x, .LockRetriesExceeded y => by
    rw [show RedsyncError.beq (.LockRetriesExceeded x) (.LockRetriesExceeded y)
      = RedsyncError.beqList x y from rfl]
    rw [RedsyncError.beqList_iff x y]
    simp
  | .ExtendRetriesExceeded x, .ExtendRetriesExceeded y => by
    rw [show RedsyncError.beq (.ExtendRetriesExceeded x)
      (.ExtendRetriesExceeded y) = RedsyncError.beqList x y from rfl]
    rw [RedsyncError.beqList_iff x y]
    simp
  | .UnlockFailed x, .UnlockFailed y => by
    rw [show RedsyncError.beq (.UnlockFailed x) (.UnlockFailed y)
      = RedsyncError.beqList x y from rfl]
    rw [RedsyncError.beqList_iff x y]
    simp
  | .RedisError _, .UnexpectedResponse _ => by simp [RedsyncError.beq]
  | .RedisError _, .ResourceLocked => by simp [RedsyncError.beq]
  | .RedisError _, .InvalidLease => by simp [RedsyncError.beq]
  | .RedisError _, .LockRetriesExceeded _ => by simp [RedsyncError.beq]
  | .RedisError _, .ExtendRetriesExceeded _ => by simp [RedsyncError.beq]
  | .RedisError _, .UnlockFailed _ => by simp [RedsyncError.beq]
  | .UnexpectedResponse _, .RedisError _ => by simp [RedsyncError.beq]
  | .UnexpectedResponse _, .ResourceLocked => by simp [RedsyncError.beq]
  | .UnexpectedResponse _, .InvalidLease => by simp [RedsyncError.beq]
  | .UnexpectedResponse _, .LockRetriesExceeded _ => by simp [RedsyncError.beq]
  | .UnexpectedResponse _, .ExtendRetriesExceeded _ => by
    simp [RedsyncError.beq]
  | .UnexpectedResponse _, .UnlockFailed _ => by simp [RedsyncError.beq]
  | .ResourceLocked, .RedisError _ => by simp [RedsyncError.beq]
  | .ResourceLocked, .UnexpectedResponse _ => by simp [RedsyncError.beq]
  | .ResourceLocked, .InvalidLease => by simp [RedsyncError.beq]
  | .ResourceLocked, .LockRetriesExceeded _ => by simp [RedsyncError.beq]
  | .ResourceLocked, .ExtendRetriesExceeded _ => by simp [RedsyncError.beq]
  | .ResourceLocked, .UnlockFailed _ => by simp [RedsyncError.beq]
  | .InvalidLease, .RedisError _ => by simp [RedsyncError.beq]
  | .InvalidLease, .UnexpectedResponse _ => by simp [RedsyncError.beq]
  | .InvalidLease, .ResourceLocked => by simp [RedsyncError.beq]
  | .InvalidLease, .LockRetriesExceeded _ => by simp [RedsyncError.beq]
  | .InvalidLease, .ExtendRetriesExceeded _ => by simp [RedsyncError.beq]
  | .InvalidLease, .UnlockFailed _ => by simp [RedsyncError.beq]
  | .LockRetriesExceeded _, .RedisError _ => by simp [RedsyncError.beq]
  | .LockRetriesExceeded _, .UnexpectedResponse _ => by simp [RedsyncError.beq]
  | .LockRetriesExceeded _, .ResourceLocked => by simp [RedsyncError.beq]
  | .LockRetriesExceeded _, .InvalidLease => by simp [RedsyncError.beq]
  | .LockRetriesExceeded _, .ExtendRetriesExceeded _ => by
    simp [RedsyncError.beq]
  | .LockRetriesExceeded _, .UnlockFailed _ => by simp [RedsyncError.beq]
  | .ExtendRetriesExceeded _, .RedisError _ => by simp [RedsyncError.beq]
  | .ExtendRetriesExceeded _, .UnexpectedResponse _ => by
    simp [RedsyncError.beq]
  | .ExtendRetriesExceeded _, .ResourceLocked => by simp [RedsyncError.beq]
  | .ExtendRetriesExceeded _, .InvalidLease => by simp [RedsyncError.beq]
  | .ExtendRetriesExceeded _, .LockRetriesExceeded _ => by
    simp [RedsyncError.beq]
  | .ExtendRetriesExceeded _, .UnlockFailed _ => by simp [RedsyncError.beq]
  | .UnlockFailed _, .RedisError _ => by simp [RedsyncError.beq]
  | .UnlockFailed _, .UnexpectedResponse _ => by simp [RedsyncError.beq]
  | .UnlockFailed _, .ResourceLocked => by simp [RedsyncError.beq]
  | .UnlockFailed _, .InvalidLease => by simp [RedsyncError.beq]
  | .UnlockFailed _, .LockRetriesExceeded _ => by simp [RedsyncError.beq]
  | .UnlockFailed _, .ExtendRetriesExceeded _ => by simp [RedsyncError.beq]

theorem RedsyncError.beqList_iff : ∀ xs ys : List RedsyncError,
    RedsyncError.beqList xs ys = true ↔ xs = ys
  | [], [] => by simp [RedsyncError.beqList]
  | [], _ :: _ => by simp [RedsyncError.beqList]
  | _ :: _, [] => by simp [RedsyncError.beqList]
  | x :: xs, y :: ys => by
    rw [show RedsyncError.beqList (x :: xs) (y :: ys)
      = (RedsyncError.beq x y && RedsyncError.beqList xs ys) from rfl]
    rw [Bool.and_eq_true, RedsyncError.beq_iff x y,
      RedsyncError.beqList_iff xs ys]
    simp

end

/-! ## Claims -/

/-- C1: every `lock`/`extend` call that returns a `Lock` did so from an
attempt whose votes reached quorum with the expiry check still ahead of the
monotonic clock; the returned expiry is `start + ttl - drift` for that
attempt's start reading with `drift = ⌊ttl · drift_factor⌋ + 2` ms, so under
the default `drift_factor = 0.01` it is at most
`start + ttl - ⌊ttl · 0.01⌋ - 2` ms. -/
theorem claim_C1_success_validity (s : Redsync) (c : Call)
    (resource value : String) (ttl : Nat) (times : Nat → Int × Int)
    (lk : Lock)
    (h : (s.call c resource value ttl times).1 = .ok lk) :
    ∃ k, 1 ≤ k ∧ k ≤ s.retry_count ∧
      s.quorum ≤ attemptVotes s c resource value ttl (s.drift ttl) times k ∧
      (times k).2 < lk.expiry ∧
      lk.expiry = (times k).1 + (ttl : Int) - (s.drift ttl : Int) ∧
      (s.drift_factor = 1 / 100 →
        lk.expiry ≤ (times k).1 + (ttl : Int) - ((ttl / 100 : Nat) : Int)
          - 2) := by
  obtain ⟨k, hk1, hk2, hok, rfl⟩ := callLoop_ok s c resource value ttl
    (s.drift ttl) times s.retry_count 1 [] lk h
  refine ⟨k, hk1, by omega, hok.1, hok.2, rfl, ?_⟩
  intro hdf
  simp only [attemptLock]
  rw [Redsync.drift_default s hdf ttl]
  push_cast
  omega

/-- C1 witness: over `clusterA` the lock call returns the attempt-1
candidate with `expiry = 988`, and the validity facts hold there. -/
theorem claim_C1_witness :
    ((Redsync.new clusterA).call Call.Lock lockA.resource lockA.value 1000
        timesZ).1 = Except.ok lockA ∧
    (∃ k, 1 ≤ k ∧ k ≤ (Redsync.new clusterA).retry_count ∧
      (Redsync.new clusterA).quorum ≤ attemptVotes (Redsync.new clusterA)
        Call.Lock lockA.resource lockA.value 1000
        ((Redsync.new clusterA).drift 1000) timesZ k ∧
      (timesZ k).2 < lockA.expiry ∧
      lockA.expiry = (timesZ k).1 + (1000 : Int)
        - ((Redsync.new clusterA).drift 1000 : Int) ∧
      ((Redsync.new clusterA).drift_factor = 1 / 100 →
        lockA.expiry ≤ (timesZ k).1 + (1000 : Int)
          - ((1000 / 100 : Nat) : Int) - 2)) := by
  have h : ((Redsync.new clusterA).call Call.Lock lockA.resource lockA.value
      1000 timesZ).1 = Except.ok lockA := by
    rw [Redsync.call, show (Redsync.new clusterA).drift 1000 = 12 from
      RedsyncBuilder.build_drift (RedsyncBuilder.new clusterA) 1000]
    rfl
  exact ⟨h, claim_C1_success_validity (Redsync.new clusterA) Call.Lock
    lockA.resource lockA.value 1000 timesZ lockA h⟩

/-- C2: for every cluster of size `N ≥ 1` the built manager's quorum is
`⌊N / 2⌋ + 1`, fixed at build time, and it is a strict majority:
`2 · quorum > N`. -/
theorem claim_C2_quorum_majority (b : RedsyncBuilder)
    (h : 1 ≤ b.cluster.length) :
    b.build.quorum = b.cluster.length / 2 + 1 ∧
      b.cluster.length < 2 * b.build.quorum := by
  refine ⟨rfl, ?_⟩
  show b.cluster.length < 2 * (b.cluster.length / 2 + 1)
  omega

/-- C2 witness: the three-instance cluster gets quorum `3 / 2 + 1 = 2`, a
strict majority. -/
theorem claim_C2_witness :
    1 ≤ (RedsyncBuilder.new clusterA).cluster.length ∧
      ((RedsyncBuilder.new clusterA).build.quorum
          = (RedsyncBuilder.new clusterA).cluster.length / 2 + 1 ∧
        (RedsyncBuilder.new clusterA).cluster.length
          < 2 * (RedsyncBuilder.new clusterA).build.quorum) :=
  ⟨by decide, claim_C2_quorum_majority (RedsyncBuilder.new clusterA)
    (by decide)⟩

/-- C3: an exhausted `lock`/`extend` reports exactly the per-instance errors
of its final attempt, in cluster order — the `MultiError` is reset between
attempts, so earlier attempts' errors never appear — and every attempt of
the run failed. -/
theorem claim_C3_final_attempt_errors (s : Redsync) (c : Call)
    (resource value : String) (ttl : Nat) (times : Nat → Int × Int)
    (e : RedsyncError)
    (h : (s.call c resource value ttl times).1 = .error e)
    (hrc : 1 ≤ s.retry_count) :
    e = c.mkError (attemptErrs s c resource value ttl (s.drift ttl) times
        s.retry_count) ∧
      ∀ k, 1 ≤ k → k ≤ s.retry_count →
        ¬ attemptOk s c resource value ttl (s.drift ttl) times k := by
  rw [Redsync.call] at h
  have hfail := callLoop_all_fail_of_err s c resource value ttl (s.drift ttl)
    times s.retry_count 1 [] e h
  obtain ⟨r, hr⟩ : ∃ r, s.retry_count = r + 1 := ⟨s.retry_count - 1, by omega⟩
  have hv := callLoop_err_val s c resource value ttl (s.drift ttl) times r 1
    (fun k h1 h2 => hfail k h1 (by omega))
  rw [hr] at h
  rw [hv] at h
  injection h with h2
  have hidx : 1 + r = s.retry_count := by omega
  rw [hidx] at h2
  exact ⟨h2.symm, fun k hk1 hk2 => hfail k hk1 (by omega)⟩

/-- C3 witness: over `clusterB` (two denials, one grant) the lock call is
exhausted and carries exactly the final attempt's two `ResourceLocked`
entries. -/
theorem claim_C3_witness :
    (dlmB.call Call.Lock lockA.resource lockA.value 1000 timesZ).1
        = Except.error (.LockRetriesExceeded
          [.ResourceLocked, .ResourceLocked]) ∧
    1 ≤ dlmB.retry_count ∧
    (RedsyncError.LockRetriesExceeded [.ResourceLocked, .ResourceLocked]
        = Call.mkError Call.Lock (attemptErrs dlmB Call.Lock lockA.resource
          lockA.value 1000 (dlmB.drift 1000) timesZ dlmB.retry_count) ∧
      ∀ k, 1 ≤ k → k ≤ dlmB.retry_count →
        ¬ attemptOk dlmB Call.Lock lockA.resource lockA.value 1000
          (dlmB.drift 1000) timesZ k) := by
  have h : (dlmB.call Call.Lock lockA.resource lockA.value 1000 timesZ).1
      = Except.error (.LockRetriesExceeded
        [.ResourceLocked, .ResourceLocked]) := by
    rw [Redsync.call, show dlmB.drift 1000 = 12 from
      RedsyncBuilder.build_drift (RedsyncBuilder.new clusterB) 1000]
    rfl
  exact ⟨h, by decide, claim_C3_final_attempt_errors dlmB Call.Lock
    lockA.resource lockA.value 1000 timesZ _ h (by decide)⟩

/-- C4: `unlock` is a single fan-out of `release` over the cluster in
cluster order, with no retry: it succeeds exactly when the successful
releases reach quorum, and otherwise returns `UnlockFailed` carrying one
error per failed release, in cluster order. -/
theorem claim_C4_unlock_quorum (s : Redsync) (lock : Lock) :
    s.unlock lock =
      if fanVotes (fun i => i.release lock) s.cluster < s.quorum then
        .error (.UnlockFailed (fanErrs (fun i => i.release lock) s.cluster))
      else .ok () := by
  rw [Redsync.unlock]
  simp only [tally_eq, Nat.zero_add, List.nil_append]

/-- C5: on every failing attempt `k` of a `lock`/`extend` run — the final
attempt included — the best-effort clean-up unlock sends exactly one release
to every instance, in particular to each instance that voted success, and
the run's trace is ordered by attempt number, so those releases happen
before any event of a later attempt. The clean-up's own result is discarded
by construction. -/
theorem claim_C5_cleanup_release_per_attempt (s : Redsync) (c : Call)
    (resource value : String) (ttl : Nat) (times : Nat → Int × Int)
    (k i : Nat) (hk1 : 1 ≤ k) (hk2 : k ≤ s.retry_count)
    (hprev : ∀ j, 1 ≤ j → j < k →
      ¬ attemptOk s c resource value ttl (s.drift ttl) times j)
    (hfailk : ¬ attemptOk s c resource value ttl (s.drift ttl) times k)
    (hi : i < s.cluster.length) :
    ((s.call c resource value ttl times).2).count (Event.rel k i) = 1 ∧
      ((s.call c resource value ttl times).2).Pairwise
        (fun e f => e.attempt ≤ f.attempt) :=
  ⟨callLoop_count_rel s c resource value ttl (s.drift ttl) times i hi
      s.retry_count 1 [] k hk1 (by omega) hprev hfailk,
    callLoop_attempt_pairwise s c resource value ttl (s.drift ttl) times
      s.retry_count 1 []⟩

/-- C5 witness: over `clusterB`, attempt 1 fails and instance 0 — which
voted success — receives exactly one clean-up release, in an
attempt-ordered trace. -/
theorem claim_C5_witness :
    (¬ attemptOk dlmB Call.Lock lockA.resource lockA.value 1000
        (dlmB.drift 1000) timesZ 1) ∧
      ((dlmB.call Call.Lock lockA.resource lockA.value 1000 timesZ).2).count
          (Event.rel 1 0) = 1 ∧
        ((dlmB.call Call.Lock lockA.resource lockA.value 1000
            timesZ).2).Pairwise (fun e f => e.attempt ≤ f.attempt) := by
  have hf : ¬ attemptOk dlmB Call.Lock lockA.resource lockA.value 1000
      (dlmB.drift 1000) timesZ 1 := by
    rw [show dlmB.drift 1000 = 12 from
      RedsyncBuilder.build_drift (RedsyncBuilder.new clusterB) 1000]
    decide
  exact ⟨hf, claim_C5_cleanup_release_per_attempt dlmB Call.Lock
    lockA.resource lockA.value 1000 timesZ 1 0 (by decide) (by decide)
    (by intro j hj1 hj2; omega) hf (by decide)⟩

/-- C6: with the builder-derived jitter bound (half the base delay), every
sample in `[-1, 1)` yields a delay, without aborting, inside
`[max(0, retry_delay − retry_jitter), retry_delay + retry_jitter]`. -/
theorem claim_C6_jitter_bounds (s : Redsync) (sample : Rat)
    (hj : s.retry_jitter = (s.retry_delay : Rat) * (1 / 2))
    (h1 : -1 ≤ sample) (h2 : sample < 1) :
    ∃ d : Nat, s.get_retry_delay sample = some d ∧
      max 0 ((s.retry_delay : Rat) - s.retry_jitter) ≤ (d : Rat) ∧
      (d : Rat) ≤ (s.retry_delay : Rat) + s.retry_jitter := by
  have hD0 : (0 : Rat) ≤ (s.retry_delay : Rat) := Nat.cast_nonneg _
  have hjb0 : (0 : Rat) ≤ s.retry_jitter := by
    rw [hj]
    positivity
  have hjbD : s.retry_jitter ≤ (s.retry_delay : Rat) := by
    rw [hj]
    linarith
  rw [Redsync.get_retry_delay]
  by_cases hpos : 0 < sample * s.retry_jitter
  · rw [if_pos hpos]
    have hfl0 : 0 ≤ Rat.floor (sample * s.retry_jitter) := by
      rw [ratFloor_eq_intFloor]
      exact Int.le_floor.mpr (by exact_mod_cast hpos.le)
    have hcast : (((Rat.floor (sample * s.retry_jitter)).toNat : Nat) : Rat)
        = ((Rat.floor (sample * s.retry_jitter) : Int) : Rat) := by
      exact_mod_cast Int.toNat_of_nonneg hfl0
    have hfle : ((Rat.floor (sample * s.retry_jitter) : Int) : Rat)
        ≤ sample * s.retry_jitter := by
      rw [ratFloor_eq_intFloor]
      exact Int.floor_le _
    have hub : sample * s.retry_jitter ≤ s.retry_jitter := by
      nlinarith
    refine ⟨_, rfl, ?_, ?_⟩
    · push_cast
      rw [hcast]
      refine max_le ?_ ?_
      · positivity
      · nlinarith [hfl0]
    · push_cast
      rw [hcast]
      linarith
  · have hneg : sample * s.retry_jitter ≤ 0 := le_of_not_lt hpos
    have hfl0 : 0 ≤ Rat.floor (-(sample * s.retry_jitter)) := by
      rw [ratFloor_eq_intFloor]
      exact Int.le_floor.mpr (by exact_mod_cast (neg_nonneg.mpr hneg))
    have hcast : (((Rat.floor (-(sample * s.retry_jitter))).toNat : Nat) : Rat)
        = ((Rat.floor (-(sample * s.retry_jitter)) : Int) : Rat) := by
      exact_mod_cast Int.toNat_of_nonneg hfl0
    have hfle : ((Rat.floor (-(sample * s.retry_jitter)) : Int) : Rat)
        ≤ -(sample * s.retry_jitter) := by
      rw [ratFloor_eq_intFloor]
      exact Int.floor_le _
    have hub : -(sample * s.retry_jitter) ≤ s.retry_jitter := by
      nlinarith
    have huD : (Rat.floor (-(sample * s.retry_jitter))).toNat
        ≤ s.retry_delay := by
      have hc : (((Rat.floor (-(sample * s.retry_jitter))).toNat : Nat) : Rat)
          ≤ (s.retry_delay : Rat) := by
        rw [hcast]
        linarith
      exact_mod_cast hc
    rw [if_neg hpos, if_pos huD]
    refine ⟨_, rfl, ?_, ?_⟩
    · have hsub : (((s.retry_delay
          - (Rat.floor (-(sample * s.retry_jitter))).toNat : Nat)) : Rat)
        = (s.retry_delay : Rat)
          - (((Rat.floor (-(sample * s.retry_jitter))).toNat : Nat) : Rat) :=
        Nat.cast_sub huD
      rw [hsub, hcast]
      refine max_le ?_ ?_
      · have hge : (((s.retry_delay
            - (Rat.floor (-(sample * s.retry_jitter))).toNat : Nat)) : Rat)
            ≥ 0 := Nat.cast_nonneg _
        linarith [hge, hsub.symm]
      · linarith
    · have hsub : (((s.retry_delay
          - (Rat.floor (-(sample * s.retry_jitter))).toNat : Nat)) : Rat)
        = (s.retry_delay : Rat)
          - (((Rat.floor (-(sample * s.retry_jitter))).toNat : Nat) : Rat) :=
        Nat.cast_sub huD
      rw [hsub, hcast]
      have hge : (0 : Rat)
          ≤ ((Rat.floor (-(sample * s.retry_jitter)) : Int) : Rat) := by
        exact_mod_cast hfl0
      linarith

/-- C6 witness: the default manager at sample `-1` (the extreme negative
draw) returns a delay inside the stated interval. -/
theorem claim_C6_witness :
    dlmA.retry_jitter = (dlmA.retry_delay : Rat) * (1 / 2) ∧
      (-1 : Rat) ≤ -1 ∧ (-1 : Rat) < 1 ∧
      ∃ d : Nat, dlmA.get_retry_delay (-1) = some d ∧
        max 0 ((dlmA.retry_delay : Rat) - dlmA.retry_jitter) ≤ (d : Rat) ∧
        (d : Rat) ≤ (dlmA.retry_delay : Rat) + dlmA.retry_jitter :=
  ⟨rfl, le_refl _, by decide,
    claim_C6_jitter_bounds dlmA (-1) rfl (le_refl _) (by decide)⟩

/-- C7 counterexample: `build` on the empty cluster does not surface a
failure — it hands back a manager, with `quorum = 1`. -/
theorem claim_C7_counterexample :
    (RedsyncBuilder.new ([] : List Instance)).build.cluster = [] ∧
      (RedsyncBuilder.new ([] : List Instance)).build.quorum = 1 :=
  ⟨rfl, rfl⟩

/-- C7 amended: the builder never validates the cluster: for every cluster,
the empty one included, `build` totally hands back a manager holding the
given cluster, `quorum = ⌊N / 2⌋ + 1`, and the default retry settings. -/
theorem claim_C7_build_total (cluster : List Instance) :
    (RedsyncBuilder.new cluster).build.cluster = cluster ∧
      (RedsyncBuilder.new cluster).build.quorum = cluster.length / 2 + 1 ∧
      (RedsyncBuilder.new cluster).build.retry_count = 3 ∧
      (RedsyncBuilder.new cluster).build.retry_delay = 200 :=
  ⟨rfl, rfl, rfl, rfl⟩

/-- C8 counterexample: at `ttl = 50` ms the connection timeout is `0` ms,
not the claimed 1 ms minimum. -/
theorem claim_C8_counterexample : RedisInstance.timeout 50 = 0 := by
  rw [RedisInstance.timeout, ratFloor_natCast_mul_hundredth,
    Int.toNat_natCast]

/-- C8 amended: the connection timeout is exactly `⌊ttl · 0.01⌋` ms with no
1 ms lower clamp, so every `ttl` below 100 ms gives a zero timeout. -/
theorem claim_C8_timeout_floor (ttl : Nat) :
    RedisInstance.timeout ttl = ttl / 100 := by
  rw [RedisInstance.timeout, ratFloor_natCast_mul_hundredth,
    Int.toNat_natCast]

/-- C9 counterexample: `includes` compares payloads too — a `MultiError`
holding `UnexpectedResponse (IntV 1)` does not include
`UnexpectedResponse (IntV 2)`, although the two carry the same variant
tag. -/
theorem claim_C9_counterexample :
    MultiError.includes [RedsyncError.UnexpectedResponse (RValue.IntV 1)]
        (RedsyncError.UnexpectedResponse (RValue.IntV 2)) = false ∧
      RedsyncError.tag (RedsyncError.UnexpectedResponse (RValue.IntV 1))
        = RedsyncError.tag (RedsyncError.UnexpectedResponse (RValue.IntV 2)) :=
  ⟨rfl, rfl⟩

/-- C9 amended: `includes` decides membership under full structural
equality — variant tags and payloads — not equality on tags alone. -/
theorem claim_C9_includes_structural (m : MultiError) (e : RedsyncError) :
    MultiError.includes m e = true ↔ e ∈ m := by
  induction m with
  | nil => simp [MultiError.includes]
  | cons x xs ih =>
    rw [MultiError.includes, List.contains_cons, Bool.or_eq_true]
    rw [MultiError.includes] at ih
    constructor
    · rintro (hx | hxs)
      · exact List.mem_cons.mpr (Or.inl ((RedsyncError.beq_iff e x).mp hx))
      · exact List.mem_cons_of_mem x (ih.mp hxs)
    · intro hm
      rcases List.mem_cons.mp hm with rfl | hm2
      · exact Or.inl ((RedsyncError.beq_iff e e).mpr rfl)
      · exact Or.inr (ih.mpr hm2)

/-- C10: the builder accepts `retry_count = 0` without error, and the
resulting manager's `lock` and `extend` return at once with an empty
`MultiError` and an empty trace: no instance contact, no sleep, no clean-up
release. -/
theorem claim_C10_zero_retries (cluster : List Instance)
    (resource value : String) (ttl : Nat) (times : Nat → Int × Int) :
    (((RedsyncBuilder.new cluster).retryCount 0).build).retry_count = 0 ∧
      (((RedsyncBuilder.new cluster).retryCount 0).build).call .Lock resource
        value ttl times = (.error (.LockRetriesExceeded []), []) ∧
      (((RedsyncBuilder.new cluster).retryCount 0).build).call .Extend
        resource value ttl times = (.error (.ExtendRetriesExceeded []), []) :=
  ⟨rfl, rfl, rfl⟩
